import Mathlib

/-!
Verification development for the realtime client library
(`src/lib/event_handler.ts`, `src/lib/conversation.ts`, `src/unnamed/part_000`
= `RealtimeAPI`, `src/unnamed/part_001` = `RealtimeClient`).

The TypeScript code is shallowly embedded: every stateful class becomes a
structure, every method a pure function returning the new state, and every
`throw` an `Except.error` result paired with the state as mutated up to the
throwing statement (JavaScript exceptions do not roll back prior mutations).
JavaScript objects shared by reference between `itemLookup` and `items`
(respectively `responseLookup` / `responses`) are rendered by updating the
value at the item's key in both containers simultaneously.

Machine integers: audio offsets and sample counts are natural numbers;
`Math.floor (a * b / c)` on non-negative integer inputs is `a * b / c` in
`Nat`. PCM16 samples are `Int` values in `[-32768, 32767]` produced by the
codec below.
-/

/-- Value of a JavaScript string-typed slot that can also hold `undefined`
or (through the queued-transcript slip in `conversation.item.created`) a
whole `QueuedTranscript` record. String coercion follows JavaScript:
`undefined` prints as `"undefined"`, a plain object as `"[object Object]"`. -/
inductive JsVal where
  | str (s : String)
  | undef
  | objTranscript (t : String)
deriving DecidableEq

/-- String coercion of a `JsVal`, as JavaScript performs it when the value
is concatenated onto a string. -/
def JsVal.toStr : JsVal → String
  | .str s => s
  | .undef => "undefined"
  | .objTranscript _ => "[object Object]"

/-- JavaScript `x += d` on a slot holding `x : JsVal` and a string `d`. -/
def JsVal.addStr (v : JsVal) (d : String) : JsVal :=
  .str (v.toStr ++ d)

/-- JavaScript property access stringifies a missing (`undefined`) key, so
`lookup[item_id]` with `item_id === undefined` reads the key `"undefined"`. -/
def jsKey (o : Option String) : String :=
  o.getD "undefined"

/-- Modelled from the spec: the base64 alphabet of the stateless
base64-to-array codec (`RealtimeUtils.base64ToArrayBuffer`, an external
collaborator whose source is not under `src/`). -/
def b64Val (c : Char) : Option Nat :=
  if 'A' ≤ c ∧ c ≤ 'Z' then some (c.toNat - 65)
  else if 'a' ≤ c ∧ c ≤ 'z' then some (c.toNat - 71)
  else if '0' ≤ c ∧ c ≤ '9' then some (c.toNat + 4)
  else if c = '+' then some 62
  else if c = '/' then some 63
  else none

/-- Modelled from the spec: regroup base64 sextets into bytes. -/
def b64Bytes : List Nat → List Nat
  | a :: b :: c :: d :: rest =>
      (a * 4 + b / 16) :: ((b % 16) * 16 + c / 4) :: ((c % 4) * 64 + d) :: b64Bytes rest
  | [a, b] => [a * 4 + b / 16]
  | [a, b, c] => [a * 4 + b / 16, (b % 16) * 16 + c / 4]
  | _ => []

/-- Modelled from the spec: little-endian byte pairs viewed as signed
16-bit PCM samples (`new Int16Array(arrayBuffer)`). -/
def bytesToPcm16 : List Nat → List Int
  | b0 :: b1 :: rest =>
      (if b0 + 256 * b1 < 32768 then (b0 + 256 * b1 : Int)
       else (b0 + 256 * b1 : Int) - 65536) :: bytesToPcm16 rest
  | _ => []

/-- Modelled from the spec: the full base64-string-to-PCM16-samples codec
used by `response.audio.delta` (audio convention: 16-bit signed PCM,
base64-encoded on the wire). -/
def base64ToPcm16 (s : String) : List Int :=
  bytesToPcm16 (b64Bytes (s.toList.filterMap b64Val))

/-- Modelled from the spec: the stateless sample-array slice helper;
`Int16Array.prototype.slice start stop` keeps indices in `[start, stop)`. -/
def jsSlice (l : List Int) (start stop : Nat) : List Int :=
  (l.take stop).drop start

/-- Lookup in a JavaScript object used as a string-keyed dictionary. -/
def alFind {α : Type} (l : List (String × α)) (k : String) : Option α :=
  match l with
  | [] => none
  | p :: r => if p.1 = k then some p.2 else alFind r k

/-- Assignment `obj[k] = v` on a JavaScript dictionary: an existing key
keeps its position, a fresh key is appended in insertion order. -/
def alSet {α : Type} (l : List (String × α)) (k : String) (v : α) : List (String × α) :=
  match l with
  | [] => [(k, v)]
  | p :: r => if p.1 = k then (k, v) :: r else p :: alSet r k v

/-- Deletion `delete obj[k]` on a JavaScript dictionary. -/
def alErase {α : Type} (l : List (String × α)) (k : String) : List (String × α) :=
  l.filter (fun p => p.1 ≠ k)

/-- Content part of a conversation item (`text`, `input_text`, `audio`,
`input_audio`, ... typed parts with text/transcript fields). -/
structure ContentPart where
  type : String := ""
  text : JsVal := .undef
  transcript : JsVal := .undef
  audio : Option String := none
deriving DecidableEq

/-- Formatted tool accumulator seeded by `conversation.item.created` for
`function_call` items. -/
structure FormattedTool where
  type : String := "function"
  name : Option String := none
  call_id : Option String := none
  arguments : String := ""
deriving DecidableEq

/-- Formatted accumulator (`item.formatted`): derived, append-only view of
an item's content. `audio := none` renders a JavaScript `undefined` slot
(possible when a queued speech record without materialized audio is
consumed). -/
structure Formatted where
  audio : Option (List Int) := none
  text : String := ""
  transcript : JsVal := .str ""
  tool : Option FormattedTool := none
  output : Option String := none
deriving DecidableEq

/-- Conversation item (`ItemType`): message, function_call or
function_call_output, with raw content parts and the formatted accumulator.
Fields absent on a given variant are rendered as `none` / `.undef`; a
missing `content` array behaves like the empty list for every code path
exercised here. -/
structure Item where
  id : String := ""
  type : String := ""
  role : Option String := none
  status : Option String := none
  call_id : Option String := none
  name : Option String := none
  arguments : JsVal := .undef
  output : Option String := none
  content : List ContentPart := []
  formatted : Formatted := {}
deriving DecidableEq

/-- Response resource: identity plus the ordered ids of its output items. -/
structure ResponseType where
  id : String := ""
  output : List String := []
deriving DecidableEq

/-- Queued speech record for a not-yet-created item id. -/
structure QueuedSpeech where
  audio : Option (List Int) := none
  audio_start_ms : Option Nat := none
  audio_end_ms : Option Nat := none
deriving DecidableEq

/-- Queued transcript record for a not-yet-created item id. -/
structure QueuedTranscript where
  transcript : String := ""
deriving DecidableEq

/-- State of `RealtimeConversation`: the id-indexed dictionaries and the
insertion-ordered lists they alias, plus the race-tolerance queues. -/
structure Conversation where
  itemLookup : List (String × Item) := []
  items : List Item := []
  responseLookup : List (String × ResponseType) := []
  responses : List ResponseType := []
  queuedSpeechItems : List (String × QueuedSpeech) := []
  queuedTranscriptItems : List (String × QueuedTranscript) := []
  queuedInputAudio : Option (List Int) := none
deriving DecidableEq

/-- Fixed sample rate (`defaultFrequency = 24_000` Hz). -/
def Conversation.defaultFrequency : Nat := 24000

/-- Clears the conversation history and resets to default
(`RealtimeConversation.clear`). -/
def Conversation.clear (_c : Conversation) : Conversation :=
  { itemLookup := [], items := [], responseLookup := [], responses := []
    queuedSpeechItems := [], queuedTranscriptItems := [], queuedInputAudio := none }

/-- Incoming event shape (`Event` in `conversation.ts`); optional fields
are `Option`s, `none` rendering an absent (`undefined`) field. -/
structure Event where
  event_id : String := ""
  type : String := ""
  item : Option Item := none
  item_id : Option String := none
  content_index : Option Nat := none
  transcript : Option String := none
  response : Option ResponseType := none
  response_id : Option String := none
  part : Option ContentPart := none
  delta : Option String := none
  audio_start_ms : Option Nat := none
  audio_end_ms : Option Nat := none
deriving DecidableEq

/-- Delta returned by an event processor (`ItemContentDeltaType`). -/
structure ItemContentDelta where
  text : Option String := none
  audio : Option (List Int) := none
  arguments : Option String := none
  transcript : Option String := none
deriving DecidableEq

/-- Result of one `processEvent` call: `{item, delta}`, either possibly
null. -/
structure ProcResult where
  item : Option Item := none
  delta : Option ItemContentDelta := none
deriving DecidableEq

/-- In-place mutation of the item object aliased by `itemLookup` and
`items`: the value stored under the item's id and every list cell holding
that object are replaced together. -/
def Conversation.setItem (s : Conversation) (it : Item) : Conversation :=
  { s with
    itemLookup := s.itemLookup.map (fun p => if p.1 = it.id then (p.1, it) else p)
    items := s.items.map (fun j => if j.id = it.id then it else j) }

/-- In-place mutation of the response object aliased by `responseLookup`
and `responses`. -/
def Conversation.setResponse (s : Conversation) (r : ResponseType) : Conversation :=
  { s with
    responseLookup := s.responseLookup.map (fun p => if p.1 = r.id then (p.1, r) else p)
    responses := s.responses.map (fun q => if q.id = r.id then r else q) }

/-- Text contributed on creation by already-present `text` / `input_text`
content parts (`conversation.item.created`, lines 87-91). -/
def textOfParts (parts : List ContentPart) : String :=
  (parts.filter (fun c => c.type = "text" ∨ c.type = "input_text")).foldl
    (fun acc c => acc ++ c.text.toStr) ""

/-- Processor for `conversation.item.created`. The incoming item is deep
copied, inserted only if its id is new, and then initialized in place: the
stored object therefore receives every later field assignment. Note the
source reads `this.queuedTranscriptItems.transcript` (the literal key
`"transcript"`) instead of the entry for the new item's id when consuming a
queued transcript. A missing `event.item` fails `JSON.parse` and is an
error. -/
def procItemCreated (s : Conversation) (e : Event) :
    Conversation × Except String ProcResult :=
  match e.item with
  | none => (s, .error "item.created: invalid item payload")
  | some item0 =>
    let isNew := (alFind s.itemLookup item0.id).isNone
    let f0 : Formatted :=
      { audio := some [], text := "", transcript := .str "", tool := none, output := none }
    let speechLookup := alFind s.queuedSpeechItems item0.id
    let f1 := match speechLookup with
      | some sp => { f0 with audio := sp.audio }
      | none => f0
    let qs1 := match speechLookup with
      | some _ => alErase s.queuedSpeechItems item0.id
      | none => s.queuedSpeechItems
    let f2 := { f1 with text := f1.text ++ textOfParts item0.content }
    let transcriptLookup := alFind s.queuedTranscriptItems item0.id
    let f3 := match transcriptLookup with
      | some _ =>
        { f2 with transcript :=
            match alFind s.queuedTranscriptItems "transcript" with
            | some r => JsVal.objTranscript r.transcript
            | none => JsVal.undef }
      | none => f2
    let qt1 := match transcriptLookup with
      | some _ => alErase s.queuedTranscriptItems item0.id
      | none => s.queuedTranscriptItems
    let statusTooled : String → Formatted → Option (List Int) →
        (Option String × Formatted × Option (List Int)) := fun ty f qia =>
      if ty = "message" then
        if item0.role = some "user" then
          match qia with
          | some buf => (some "completed", { f with audio := some buf }, none)
          | none => (some "completed", f, none)
        else (some "in_progress", f, qia)
      else if ty = "function_call" then
        (some "in_progress",
         { f with tool := some { type := "function", name := item0.name,
                                 call_id := item0.call_id, arguments := "" } }, qia)
      else if ty = "function_call_output" then
        (some "completed", { f with output := item0.output }, qia)
      else (item0.status, f, qia)
    let r := statusTooled item0.type f3 s.queuedInputAudio
    let newItem : Item := { item0 with status := r.1, formatted := r.2.1 }
    let s1 : Conversation :=
      { s with
        itemLookup := if isNew then alSet s.itemLookup item0.id newItem else s.itemLookup
        items := if isNew then s.items ++ [newItem] else s.items
        queuedSpeechItems := qs1
        queuedTranscriptItems := qt1
        queuedInputAudio := r.2.2 }
    (s1, .ok { item := some newItem, delta := none })

/-- Processor for `conversation.item.deleted`: removes the item from the
id index and the ordered list, `StateError` if absent. The source splices
the single aliased list cell found by `indexOf`; since ids are unique
(proved below) this equals filtering the id out. -/
def procItemDeleted (s : Conversation) (e : Event) :
    Conversation × Except String ProcResult :=
  match alFind s.itemLookup (jsKey e.item_id) with
  | none => (s, .error "item.deleted: Item not found")
  | some item =>
    ({ s with
       itemLookup := alErase s.itemLookup item.id
       items := s.items.filter (fun j => j.id ≠ item.id) },
     .ok { item := some item, delta := none })

/-- Formatted transcript with the single-space sentinel: `transcript || ' '`
(an absent or empty transcript is replaced by one space). -/
def sentinelTranscript (t : Option String) : String :=
  match t with
  | some t => if t = "" then " " else t
  | none => " "

/-- Processor for `conversation.item.input_audio_transcription.completed`:
buffers a `QueuedTranscript` when the item does not exist yet (the
empty-audio VAD race), otherwise patches the addressed content part and the
formatted transcript. An out-of-range `content_index` on an existing item
is a JavaScript `TypeError` before any mutation. -/
def procTranscriptionCompleted (s : Conversation) (e : Event) :
    Conversation × Except String ProcResult :=
  let formattedTranscript := sentinelTranscript e.transcript
  match alFind s.itemLookup (jsKey e.item_id) with
  | none =>
    let qt := alSet s.queuedTranscriptItems (jsKey e.item_id) { transcript := formattedTranscript }
    ({ s with queuedTranscriptItems := qt }, .ok { item := none, delta := none })
  | some item =>
    match e.content_index.bind (fun i => (item.content.get? i).map (i, ·)) with
    | none => (s, .error "transcription.completed: invalid content index")
    | some (i, part) =>
      let part1 := { part with transcript :=
        match e.transcript with
        | some t => .str t
        | none => .undef }
      let item1 := { item with
        content := item.content.set i part1
        formatted := { item.formatted with transcript := .str formattedTranscript } }
      (s.setItem item1, .ok { item := some item1, delta := some { transcript := e.transcript } })

/-- Processor for `conversation.item.truncated`: clears the formatted
transcript and truncates the formatted audio to
`floor (audio_end_ms * 24000 / 1000)` samples. A missing `audio_end_ms`
makes the slice bound `NaN`, which `Int16Array.slice` treats as `0`; an
`undefined` formatted audio raises after the transcript was already
cleared. -/
def procItemTruncated (s : Conversation) (e : Event) :
    Conversation × Except String ProcResult :=
  match alFind s.itemLookup (jsKey e.item_id) with
  | none => (s, .error "item.truncated: Item not found")
  | some item =>
    let endIndex := (e.audio_end_ms.getD 0) * Conversation.defaultFrequency / 1000
    let item1 := { item with formatted := { item.formatted with transcript := .str "" } }
    match item.formatted.audio with
    | none => (s.setItem item1, .error "item.truncated: cannot slice undefined audio")
    | some a =>
      let item2 := { item1 with formatted := { item1.formatted with audio := some (a.take endIndex) } }
      (s.setItem item2, .ok { item := some item2, delta := none })

/-- Processor for `input_audio_buffer.speech_started`: opens a fresh
queued speech record holding the start offset. -/
def procSpeechStarted (s : Conversation) (e : Event) :
    Conversation × Except String ProcResult :=
  let qs := alSet s.queuedSpeechItems (jsKey e.item_id) { audio_start_ms := e.audio_start_ms }
  ({ s with queuedSpeechItems := qs }, .ok { item := none, delta := none })

/-- Processor for `input_audio_buffer.speech_stopped`: closes (creating if
absent) the queued speech record; when the raw input audio buffer is
supplied as context, slices `[start, end)` at the fixed sample rate into
the record. Missing offsets become `NaN` slice bounds which JavaScript
treats as `0`. -/
def procSpeechStopped (s : Conversation) (e : Event) (ctx : Option (List Int)) :
    Conversation × Except String ProcResult :=
  let k := jsKey e.item_id
  let sp0 := match alFind s.queuedSpeechItems k with
    | some sp => sp
    | none => { audio_start_ms := e.audio_end_ms }
  let sp1 := { sp0 with audio_end_ms := e.audio_end_ms }
  let sp2 := match ctx with
    | some buf =>
      let startIndex := (sp1.audio_start_ms.getD 0) * Conversation.defaultFrequency / 1000
      let endIndex := (sp1.audio_end_ms.getD 0) * Conversation.defaultFrequency / 1000
      { sp1 with audio := some (jsSlice buf startIndex endIndex) }
    | none => sp1
  ({ s with queuedSpeechItems := alSet s.queuedSpeechItems k sp2 },
   .ok { item := none, delta := none })

/-- Processor for `response.audio.delta`: base64-decodes the delta and
appends the PCM16 samples to the formatted audio (append, never
overwrite). Merging an `undefined` audio slot or decoding a missing delta
is outside the codec's domain and errors. -/
def procAudioDelta (s : Conversation) (e : Event) :
    Conversation × Except String ProcResult :=
  match alFind s.itemLookup (jsKey e.item_id) with
  | none => (s, .error "response.audio.delta: Item not found")
  | some item =>
    match e.delta with
    | none => (s, .error "response.audio.delta: missing delta")
    | some d =>
      let appendValues := base64ToPcm16 d
      match item.formatted.audio with
      | none => (s, .error "response.audio.delta: cannot merge undefined audio")
      | some a =>
        let item1 := { item with formatted := { item.formatted with audio := some (a ++ appendValues) } }
        (s.setItem item1,
         .ok { item := some item1, delta := some { audio := some appendValues } })

/-- Processor for `response.audio_transcript.delta`: appends the delta to
the addressed content part's transcript and the formatted transcript. An
out-of-range content index is a `TypeError` before any mutation. -/
def procAudioTranscriptDelta (s : Conversation) (e : Event) :
    Conversation × Except String ProcResult :=
  match alFind s.itemLookup (jsKey e.item_id) with
  | none => (s, .error "response.audio_transcript.delta: Item not found")
  | some item =>
    match e.delta with
    | none => (s, .error "response.audio_transcript.delta: missing delta")
    | some d =>
      match e.content_index.bind (fun i => (item.content.get? i).map (i, ·)) with
      | none => (s, .error "response.audio_transcript.delta: invalid content index")
      | some (i, part) =>
        let part1 := { part with transcript := part.transcript.addStr d }
        let item1 := { item with
          content := item.content.set i part1
          formatted := { item.formatted with transcript := item.formatted.transcript.addStr d } }
        (s.setItem item1,
         .ok { item := some item1, delta := some { transcript := some d } })

/-- Processor for `response.content_part.added`: appends the new content
part descriptor to the item's content list. A missing part would push an
unusable `undefined` hole; it is rendered as an error since every later
access to it throws. -/
def procContentPartAdded (s : Conversation) (e : Event) :
    Conversation × Except String ProcResult :=
  match alFind s.itemLookup (jsKey e.item_id) with
  | none => (s, .error "response.content_part.added: Item not found")
  | some item =>
    match e.part with
    | none => (s, .error "response.content_part.added: missing part")
    | some p =>
      let item1 := { item with content := item.content ++ [p] }
      (s.setItem item1, .ok { item := some item1, delta := none })

/-- Processor for `response.created`: registers the response, idempotent
by id. -/
def procResponseCreated (s : Conversation) (e : Event) :
    Conversation × Except String ProcResult :=
  match e.response with
  | none => (s, .error "response.created: invalid response payload")
  | some r =>
    if (alFind s.responseLookup r.id).isNone then
      ({ s with responseLookup := alSet s.responseLookup r.id r
                responses := s.responses ++ [r] },
       .ok { item := none, delta := none })
    else (s, .ok { item := none, delta := none })

/-- Processor for `response.output_item.added`: appends the item id to the
named response's output list, `StateError` if the response is unknown. -/
def procOutputItemAdded (s : Conversation) (e : Event) :
    Conversation × Except String ProcResult :=
  match alFind s.responseLookup (jsKey e.response_id) with
  | none => (s, .error "response.output_item.added: Response not found")
  | some resp =>
    match e.item with
    | none => (s, .error "response.output_item.added: missing item")
    | some it =>
      let resp1 := { resp with output := resp.output ++ [it.id] }
      (s.setResponse resp1, .ok { item := none, delta := none })

/-- Processor for `response.output_item.done`: propagates the final status
onto the tracked item, `StateError` if the item is unknown. -/
def procOutputItemDone (s : Conversation) (e : Event) :
    Conversation × Except String ProcResult :=
  match e.item with
  | none => (s, .error "response.output_item.done: Missing item")
  | some it =>
    match alFind s.itemLookup it.id with
    | none => (s, .error "response.output_item.done: Item not found")
    | some foundItem =>
      let f1 := { foundItem with status := it.status }
      (s.setItem f1, .ok { item := some f1, delta := none })

/-- Processor for `response.function_call_arguments.delta`: appends the
delta to the raw `arguments` field and then to the formatted tool
arguments; a missing formatted tool is a `TypeError` raised after the raw
field was already mutated. -/
def procFunctionCallArgumentsDelta (s : Conversation) (e : Event) :
    Conversation × Except String ProcResult :=
  match alFind s.itemLookup (jsKey e.item_id) with
  | none => (s, .error "response.function_call_arguments.delta: Item not found")
  | some item =>
    match e.delta with
    | none => (s, .error "response.function_call_arguments.delta: missing delta")
    | some d =>
      let item1 := { item with arguments := item.arguments.addStr d }
      match item.formatted.tool with
      | none => (s.setItem item1, .error "response.function_call_arguments.delta: tool undefined")
      | some tl =>
        let item2 := { item1 with formatted :=
          { item1.formatted with tool := some { tl with arguments := tl.arguments ++ d } } }
        (s.setItem item2,
         .ok { item := some item2, delta := some { arguments := some d } })

/-- Processor for `response.text.delta`: appends the delta to the
addressed content part's text and the formatted text. -/
def procTextDelta (s : Conversation) (e : Event) :
    Conversation × Except String ProcResult :=
  match alFind s.itemLookup (jsKey e.item_id) with
  | none => (s, .error "response.text.delta: Item not found")
  | some item =>
    match e.delta with
    | none => (s, .error "response.text.delta: missing delta")
    | some d =>
      match e.content_index.bind (fun i => (item.content.get? i).map (i, ·)) with
      | none => (s, .error "response.text.delta: invalid content index")
      | some (i, part) =>
        let part1 := { part with text := part.text.addStr d }
        let item1 := { item with
          content := item.content.set i part1
          formatted := { item.formatted with text := item.formatted.text ++ d } }
        (s.setItem item1,
         .ok { item := some item1, delta := some { text := some d } })

/-- Dispatcher `RealtimeConversation.processEvent`: validates `event_id`
and `type`, then dispatches on the event type to the processor table; the
extra context argument (used only by `speech_stopped`) carries the caller's
raw input audio buffer. -/
def Conversation.processEvent (s : Conversation) (e : Event) (ctx : Option (List Int)) :
    Conversation × Except String ProcResult :=
  if e.event_id = "" then (s, .error "Missing event_id on event")
  else if e.type = "" then (s, .error "Missing type on event")
  else if e.type = "conversation.item.created" then procItemCreated s e
  else if e.type = "conversation.item.deleted" then procItemDeleted s e
  else if e.type = "conversation.item.input_audio_transcription.completed" then
    procTranscriptionCompleted s e
  else if e.type = "conversation.item.truncated" then procItemTruncated s e
  else if e.type = "input_audio_buffer.speech_started" then procSpeechStarted s e
  else if e.type = "input_audio_buffer.speech_stopped" then procSpeechStopped s e ctx
  else if e.type = "response.audio.delta" then procAudioDelta s e
  else if e.type = "response.audio_transcript.delta" then procAudioTranscriptDelta s e
  else if e.type = "response.content_part.added" then procContentPartAdded s e
  else if e.type = "response.created" then procResponseCreated s e
  else if e.type = "response.function_call_arguments.delta" then
    procFunctionCallArgumentsDelta s e
  else if e.type = "response.output_item.added" then procOutputItemAdded s e
  else if e.type = "response.output_item.done" then procOutputItemDone s e
  else if e.type = "response.text.delta" then procTextDelta s e
  else (s, .error "Missing conversation event processor")

/-- Retrieves an item by id (`RealtimeConversation.getItem`). -/
def Conversation.getItem (s : Conversation) (id : String) : Option Item :=
  alFind s.itemLookup id

/-- Queue input audio for a manual speech event
(`RealtimeConversation.queueInputAudio`). -/
def Conversation.queueInputAudio (s : Conversation) (inputAudio : List Int) : Conversation :=
  { s with queuedInputAudio := some inputAudio }

/-- State of `RealtimeEventHandler`: persistent and one-shot handler
tables. Handlers are opaque callbacks identified by numbers; invoking one
is recorded in the invocation log returned by `dispatch`. -/
structure EventHandlerState where
  eventHandlers : List (String × List Nat) := []
  nextEventHandlers : List (String × List Nat) := []
deriving DecidableEq

/-- Persistent subscription (`RealtimeEventHandler.on`): appends the
callback to the event's handler list. -/
def EventHandlerState.on (st : EventHandlerState) (eventName : String) (callback : Nat) :
    EventHandlerState :=
  let hs := ((alFind st.eventHandlers eventName).getD []) ++ [callback]
  { st with eventHandlers := alSet st.eventHandlers eventName hs }

/-- One-shot subscription (`RealtimeEventHandler.onNext`). -/
def EventHandlerState.onNext (st : EventHandlerState) (eventName : String) (callback : Nat) :
    EventHandlerState :=
  let hs := ((alFind st.nextEventHandlers eventName).getD []) ++ [callback]
  { st with nextEventHandlers := alSet st.nextEventHandlers eventName hs }

/-- Dispatch (`RealtimeEventHandler.dispatch`): fires every persistent
handler in subscription order, then every one-shot handler in subscription
order, then discards the one-shot set for that name. The returned log
lists each invoked handler with the payload it received. -/
def EventHandlerState.dispatch {α : Type} (st : EventHandlerState) (eventName : String)
    (event : α) : EventHandlerState × List (Nat × α) :=
  let handlers := (alFind st.eventHandlers eventName).getD []
  let nextHandlers := (alFind st.nextEventHandlers eventName).getD []
  ({ st with nextEventHandlers := alErase st.nextEventHandlers eventName },
   handlers.map (fun h => (h, event)) ++ nextHandlers.map (fun h => (h, event)))

/-- Input-audio transcription configuration (`AudioTranscriptionType`). -/
structure AudioTranscriptionCfg where
  model : String := "whisper-1"
deriving DecidableEq

/-- Server VAD turn-detection configuration
(`TurnDetectionServerVadType`); the threshold is a rational stand-in for
the floating point value. -/
structure TurnDetectionCfg where
  type : String := "server_vad"
  threshold : Option Rat := none
  prefix_padding_ms : Option Nat := none
  silence_duration_ms : Option Nat := none
deriving DecidableEq

/-- Tool definition (`ToolDefinitionType`); the JSON-schema `parameters`
blob is opaque to every claim and omitted. -/
structure ToolDefinition where
  type : Option String := none
  name : String := ""
  description : String := ""
deriving DecidableEq

/-- Tool choice: a fixed mode string or a named function. -/
inductive ToolChoice where
  | mode (m : String)
  | fn (name : String)
deriving DecidableEq

/-- Response token limit: a number or `"inf"`. -/
inductive MaxTokens where
  | num (n : Nat)
  | inf
deriving DecidableEq

/-- Session configuration (`SessionResourceType`); `temperature` is a
rational stand-in for the floating point value. -/
structure SessionConfig where
  model : Option String := none
  modalities : List String := []
  instructions : String := ""
  voice : String := ""
  input_audio_format : String := ""
  output_audio_format : String := ""
  input_audio_transcription : Option AudioTranscriptionCfg := none
  turn_detection : Option TurnDetectionCfg := none
  tools : List ToolDefinition := []
  tool_choice : ToolChoice := .mode "auto"
  temperature : Rat := 0
  max_response_output_tokens : MaxTokens := .num 0
deriving DecidableEq

/-- Default session configuration (`RealtimeClient` constructor). -/
def defaultSessionConfig : SessionConfig :=
  { model := none
    modalities := ["text", "audio"]
    instructions := ""
    voice := "shimmer"
    input_audio_format := "pcm16"
    output_audio_format := "pcm16"
    input_audio_transcription := none
    turn_detection := none
    tools := []
    tool_choice := .mode "auto"
    temperature := (4 : Rat) / 5
    max_response_output_tokens := .num 4096 }

/-- Arguments of `updateSession`: each destructured parameter is `none`
when not provided (`void 0`), which JavaScript distinguishes from an
explicitly supplied value (including an explicit `null`, rendered
`some none`). -/
structure SessionUpdateArgs where
  modalities : Option (List String) := none
  instructions : Option String := none
  voice : Option String := none
  input_audio_format : Option String := none
  output_audio_format : Option String := none
  input_audio_transcription : Option (Option AudioTranscriptionCfg) := none
  turn_detection : Option (Option TurnDetectionCfg) := none
  tools : Option (List ToolDefinition) := none
  tool_choice : Option ToolChoice := none
  temperature : Option Rat := none
  max_response_output_tokens : Option MaxTokens := none
deriving DecidableEq

/-- Command sent through `RealtimeAPI.send` by the orchestration methods
modelled here. -/
inductive Command where
  | responseCancel
  | itemTruncate (item_id : String) (content_index : Nat) (audio_end_ms : Nat)
  | sessionUpdate (session : SessionConfig)
deriving DecidableEq

/-- State of `RealtimeClient` (with its embedded `RealtimeAPI` link
rendered by the `connected` flag and the `sent` command log; tool handlers
are functions and only the registry of definitions is modelled). -/
structure ClientState where
  sessionConfig : SessionConfig := defaultSessionConfig
  tools : List (String × ToolDefinition) := []
  sessionCreated : Bool := false
  conversation : Conversation := {}
  inputAudioBuffer : List Int := []
  connected : Bool := false
  sent : List Command := []
deriving DecidableEq

/-- Send a command through the link (`RealtimeAPI.send`): appended to the
outbound log when connected, `ProtocolError` otherwise. -/
def ClientState.sendCmd (s : ClientState) (c : Command) : ClientState × Except String Unit :=
  if s.connected then ({ s with sent := s.sent ++ [c] }, .ok ()) else
    (s, .error "RealtimeAPI is not connected")

/-- Session-config merge (`RealtimeClient.updateSession`): each supplied
field overwrites the persisted configuration; the wire session then gets
the inline tools (type defaulted to `"function"`, names conflicting with
the registry rejected) concatenated with the registered tools, and is sent
only when the link is connected. -/
def RealtimeClient.updateSession (s : ClientState) (a : SessionUpdateArgs) :
    ClientState × Except String Unit :=
  let cfg := s.sessionConfig
  let cfg1 : SessionConfig :=
    { model := cfg.model
      modalities := a.modalities.getD cfg.modalities
      instructions := a.instructions.getD cfg.instructions
      voice := a.voice.getD cfg.voice
      input_audio_format := a.input_audio_format.getD cfg.input_audio_format
      output_audio_format := a.output_audio_format.getD cfg.output_audio_format
      input_audio_transcription := a.input_audio_transcription.getD cfg.input_audio_transcription
      turn_detection := a.turn_detection.getD cfg.turn_detection
      tools := a.tools.getD cfg.tools
      tool_choice := a.tool_choice.getD cfg.tool_choice
      temperature := a.temperature.getD cfg.temperature
      max_response_output_tokens := a.max_response_output_tokens.getD cfg.max_response_output_tokens }
  let s1 := { s with sessionConfig := cfg1 }
  let inline := a.tools.getD []
  if inline.any (fun d => (alFind s.tools d.name).isSome) then
    (s1, .error "Tool has already been defined")
  else
    let useTools :=
      inline.map (fun d => { d with type := some (d.type.getD "function") })
        ++ s.tools.map (fun p => { p.2 with type := some (p.2.type.getD "function") })
    if s1.connected then s1.sendCmd (.sessionUpdate { cfg1 with tools := useTools })
    else (s1, .ok ())

/-- Response cancellation (`RealtimeClient.cancelResponse`): an empty id
is a global `response.cancel`; otherwise the referenced item must be an
assistant message, a cancel is sent, and a truncate command follows with
`audio_end_ms = floor (sampleCount / 24000 * 1000)` at the index of the
first audio content part — the audio-part check happens only after the
cancel was already sent. -/
def RealtimeClient.cancelResponse (s : ClientState) (id : String) (sampleCount : Nat) :
    ClientState × Except String (Option Item) :=
  if id = "" then
    match s.sendCmd .responseCancel with
    | (s1, .ok _) => (s1, .ok none)
    | (s1, .error m) => (s1, .error m)
  else
    match s.conversation.getItem id with
    | none => (s, .error "Could not find item")
    | some item =>
      if item.type ≠ "message" then
        (s, .error "Can only cancelResponse messages with type message")
      else if item.role ≠ some "assistant" then
        (s, .error "Can only cancelResponse messages with role assistant")
      else
        match s.sendCmd .responseCancel with
        | (s1, .error m) => (s1, .error m)
        | (s1, .ok _) =>
          match item.content.findIdx? (fun c => c.type = "audio") with
          | none => (s1, .error "Could not find audio on item to cancel")
          | some audioIndex =>
            match s1.sendCmd (.itemTruncate id audioIndex
                (sampleCount * 1000 / Conversation.defaultFrequency)) with
            | (s2, .error m) => (s2, .error m)
            | (s2, .ok _) => (s2, .ok (some item))

/-- Disconnect (`RealtimeClient.disconnect`): clears the session-created
flag, closes the link when it is open (`RealtimeAPI.disconnect`, a no-op
when already closed), and clears the conversation store; every step is
total, so the call never raises. -/
def RealtimeClient.disconnect (s : ClientState) : ClientState :=
  let s1 := { s with sessionCreated := false }
  let s2 := { s1 with connected := false }
  { s2 with conversation := s2.conversation.clear }

/-! Helper lemmas about the dictionary operations and the store invariant. -/

theorem alFind_alErase_self {α : Type} (l : List (String × α)) (k : String) :
    alFind (alErase l k) k = none := by
  induction l with
  | nil => rfl
  | cons p r ih =>
    by_cases h : p.1 = k
    · simpa [alErase, List.filter_cons, h] using ih
    · simpa [alErase, List.filter_cons, h, alFind] using ih

theorem alFind_alSet_self {α : Type} (l : List (String × α)) (k : String) (v : α) :
    alFind (alSet l k v) k = some v := by
  induction l with
  | nil => simp [alSet, alFind]
  | cons p r ih =>
    by_cases h : p.1 = k
    · simp [alSet, h, alFind]
    · simpa [alSet, h, alFind] using ih

theorem alFind_none_iff {α : Type} (l : List (String × α)) (k : String) :
    alFind l k = none ↔ ∀ p ∈ l, p.1 ≠ k := by
  induction l with
  | nil => simp [alFind]
  | cons p r ih =>
    by_cases h : p.1 = k
    · simp [alFind, h]
    · simp [alFind, h, ih]

theorem alSet_absent {α : Type} (l : List (String × α)) (k : String) (v : α)
    (h : alFind l k = none) : alSet l k v = l ++ [(k, v)] := by
  induction l with
  | nil => rfl
  | cons p r ih =>
    by_cases hk : p.1 = k
    · simp [alFind, hk] at h
    · simp only [alFind, hk, if_neg] at h
      simp [alSet, hk, ih h]

theorem alFind_update_self {α : Type} (l : List (String × α)) (k : String) (v w : α)
    (h : alFind l k = some v) :
    alFind (l.map (fun p => if p.1 = k then (p.1, w) else p)) k = some w := by
  induction l with
  | nil => simp [alFind] at h
  | cons p r ih =>
    by_cases hk : p.1 = k
    · subst hk
      simp [alFind]
    · simp only [alFind, hk, if_false, if_neg] at h
      simpa [alFind, hk] using ih h

/-- Store invariant: the id index is exactly the ordered item list viewed
as key-value pairs, and item ids never repeat. -/
def ConvInv (s : Conversation) : Prop :=
  s.itemLookup = s.items.map (fun i => (i.id, i)) ∧ (s.items.map Item.id).Nodup

theorem convInv_clear : ConvInv ({} : Conversation) := by
  constructor <;> simp

theorem convInv_setItem {s : Conversation} (h : ConvInv s) (it : Item) :
    ConvInv (s.setItem it) := by
  obtain ⟨hagree, hnodup⟩ := h
  constructor
  · show (s.itemLookup.map _) = (s.items.map _).map _
    rw [hagree, List.map_map, List.map_map]
    refine List.map_congr_left ?_
    intro x _
    by_cases hx : x.id = it.id
    · simp [Function.comp, hx]
    · simp [Function.comp, hx]
  · show ((s.items.map _).map Item.id).Nodup
    rw [List.map_map]
    have : (Item.id ∘ fun j => if j.id = it.id then it else j) = Item.id := by
      funext x
      by_cases hx : x.id = it.id
      · simp [Function.comp, hx]
      · simp [Function.comp, hx]
    rw [this]
    exact hnodup

theorem convInv_of_eq {s s' : Conversation} (h : ConvInv s)
    (h1 : s'.itemLookup = s.itemLookup) (h2 : s'.items = s.items) : ConvInv s' := by
  constructor
  · rw [h1, h2]; exact h.1
  · rw [h2]; exact h.2

theorem convInv_insert {s : Conversation} (h : ConvInv s) {it : Item} {s' : Conversation}
    (hfind : alFind s.itemLookup it.id = none)
    (h1 : s'.itemLookup = alSet s.itemLookup it.id it)
    (h2 : s'.items = s.items ++ [it]) : ConvInv s' := by
  obtain ⟨hagree, hnodup⟩ := h
  have hmem : it.id ∉ s.items.map Item.id := by
    rw [hagree] at hfind
    rw [alFind_none_iff] at hfind
    intro hm
    obtain ⟨j, hj, hjid⟩ := List.mem_map.mp hm
    exact hfind (j.id, j) (List.mem_map_of_mem _ hj) hjid
  constructor
  · rw [h1, h2, alSet_absent _ _ _ hfind, hagree, List.map_append]
    rfl
  · rw [h2, List.map_append]
    simp only [List.map_cons, List.map_nil]
    rw [List.nodup_append]
    exact ⟨hnodup, List.nodup_singleton _, by simpa using hmem⟩

theorem convInv_erase {s : Conversation} (h : ConvInv s) (k : String) {s' : Conversation}
    (h1 : s'.itemLookup = alErase s.itemLookup k)
    (h2 : s'.items = s.items.filter (fun j => j.id ≠ k)) : ConvInv s' := by
  obtain ⟨hagree, hnodup⟩ := h
  constructor
  · rw [h1, h2, alErase, hagree, List.filter_map]
    rfl
  · rw [h2]
    exact hnodup.sublist ((List.filter_sublist s.items).map Item.id)

theorem convInv_procItemCreated {s : Conversation} (h : ConvInv s) (e : Event) :
    ConvInv (procItemCreated s e).1 := by
  unfold procItemCreated
  split
  · exact h
  · rename_i item0 _
    cases hfind : alFind s.itemLookup item0.id with
    | none =>
      simp only [hfind, Option.isNone_none, if_true]
      refine convInv_insert h ?_ rfl rfl
      exact hfind
    | some v =>
      simp only [hfind, Option.isNone_some, if_false]
      exact convInv_of_eq h rfl rfl

theorem convInv_procItemDeleted {s : Conversation} (h : ConvInv s) (e : Event) :
    ConvInv (procItemDeleted s e).1 := by
  unfold procItemDeleted
  split
  · exact h
  · exact convInv_erase h _ rfl rfl

theorem convInv_procTranscriptionCompleted {s : Conversation} (h : ConvInv s) (e : Event) :
    ConvInv (procTranscriptionCompleted s e).1 := by
  unfold procTranscriptionCompleted
  split
  · exact h
  · split
    · exact h
    · exact convInv_setItem h _

theorem convInv_procItemTruncated {s : Conversation} (h : ConvInv s) (e : Event) :
    ConvInv (procItemTruncated s e).1 := by
  unfold procItemTruncated
  split
  · exact h
  · split
    · exact convInv_setItem h _
    · exact convInv_setItem h _

theorem convInv_procSpeechStarted {s : Conversation} (h : ConvInv s) (e : Event) :
    ConvInv (procSpeechStarted s e).1 := by
  exact convInv_of_eq h rfl rfl

theorem convInv_procSpeechStopped {s : Conversation} (h : ConvInv s) (e : Event)
    (ctx : Option (List Int)) : ConvInv (procSpeechStopped s e ctx).1 := by
  exact convInv_of_eq h rfl rfl

theorem convInv_procAudioDelta {s : Conversation} (h : ConvInv s) (e : Event) :
    ConvInv (procAudioDelta s e).1 := by
  unfold procAudioDelta
  split
  · exact h
  · split
    · exact h
    · split
      · exact h
      · exact convInv_setItem h _

theorem convInv_procAudioTranscriptDelta {s : Conversation} (h : ConvInv s) (e : Event) :
    ConvInv (procAudioTranscriptDelta s e).1 := by
  unfold procAudioTranscriptDelta
  split
  · exact h
  · split
    · exact h
    · split
      · exact h
      · exact convInv_setItem h _

theorem convInv_procContentPartAdded {s : Conversation} (h : ConvInv s) (e : Event) :
    ConvInv (procContentPartAdded s e).1 := by
  unfold procContentPartAdded
  split
  · exact h
  · split
    · exact h
    · exact convInv_setItem h _

theorem convInv_procResponseCreated {s : Conversation} (h : ConvInv s) (e : Event) :
    ConvInv (procResponseCreated s e).1 := by
  unfold procResponseCreated
  split
  · exact h
  · split
    · exact convInv_of_eq h rfl rfl
    · exact h

theorem convInv_procOutputItemAdded {s : Conversation} (h : ConvInv s) (e : Event) :
    ConvInv (procOutputItemAdded s e).1 := by
  unfold procOutputItemAdded
  split
  · exact h
  · split
    · exact h
    · exact convInv_of_eq h rfl rfl

theorem convInv_procOutputItemDone {s : Conversation} (h : ConvInv s) (e : Event) :
    ConvInv (procOutputItemDone s e).1 := by
  unfold procOutputItemDone
  split
  · exact h
  · split
    · exact h
    · exact convInv_setItem h _

theorem convInv_procFunctionCallArgumentsDelta {s : Conversation} (h : ConvInv s) (e : Event) :
    ConvInv (procFunctionCallArgumentsDelta s e).1 := by
  unfold procFunctionCallArgumentsDelta
  split
  · exact h
  · split
    · exact h
    · split
      · exact convInv_setItem h _
      · exact convInv_setItem h _

theorem convInv_procTextDelta {s : Conversation} (h : ConvInv s) (e : Event) :
    ConvInv (procTextDelta s e).1 := by
  unfold procTextDelta
  split
  · exact h
  · split
    · exact h
    · split
      · exact h
      · exact convInv_setItem h _

/-- Every processor preserves the store invariant (error results included,
since a throw keeps the mutations performed before it). -/
theorem convInv_processEvent (s : Conversation) (e : Event) (ctx : Option (List Int))
    (h : ConvInv s) : ConvInv (Conversation.processEvent s e ctx).1 := by
  unfold Conversation.processEvent
  by_cases h1 : e.event_id = ""
  · rw [if_pos h1]; exact h
  · rw [if_neg h1]
    by_cases h2 : e.type = ""
    · rw [if_pos h2]; exact h
    · rw [if_neg h2]
      by_cases h3 : e.type = "conversation.item.created"
      · rw [if_pos h3]; exact convInv_procItemCreated h e
      · rw [if_neg h3]
        by_cases h4 : e.type = "conversation.item.deleted"
        · rw [if_pos h4]; exact convInv_procItemDeleted h e
        · rw [if_neg h4]
          by_cases h5 : e.type = "conversation.item.input_audio_transcription.completed"
          · rw [if_pos h5]; exact convInv_procTranscriptionCompleted h e
          · rw [if_neg h5]
            by_cases h6 : e.type = "conversation.item.truncated"
            · rw [if_pos h6]; exact convInv_procItemTruncated h e
            · rw [if_neg h6]
              by_cases h7 : e.type = "input_audio_buffer.speech_started"
              · rw [if_pos h7]; exact convInv_procSpeechStarted h e
              · rw [if_neg h7]
                by_cases h8 : e.type = "input_audio_buffer.speech_stopped"
                · rw [if_pos h8]; exact convInv_procSpeechStopped h e ctx
                · rw [if_neg h8]
                  by_cases h9 : e.type = "response.audio.delta"
                  · rw [if_pos h9]; exact convInv_procAudioDelta h e
                  · rw [if_neg h9]
                    by_cases h10 : e.type = "response.audio_transcript.delta"
                    · rw [if_pos h10]; exact convInv_procAudioTranscriptDelta h e
                    · rw [if_neg h10]
                      by_cases h11 : e.type = "response.content_part.added"
                      · rw [if_pos h11]; exact convInv_procContentPartAdded h e
                      · rw [if_neg h11]
                        by_cases h12 : e.type = "response.created"
                        · rw [if_pos h12]; exact convInv_procResponseCreated h e
                        · rw [if_neg h12]
                          by_cases h13 : e.type = "response.function_call_arguments.delta"
                          · rw [if_pos h13]; exact convInv_procFunctionCallArgumentsDelta h e
                          · rw [if_neg h13]
                            by_cases h14 : e.type = "response.output_item.added"
                            · rw [if_pos h14]; exact convInv_procOutputItemAdded h e
                            · rw [if_neg h14]
                              by_cases h15 : e.type = "response.output_item.done"
                              · rw [if_pos h15]; exact convInv_procOutputItemDone h e
                              · rw [if_neg h15]
                                by_cases h16 : e.type = "response.text.delta"
                                · rw [if_pos h16]; exact convInv_procTextDelta h e
                                · rw [if_neg h16]
                                  exact h

/-! Dispatcher reduction lemmas: `processEvent` applied to an event of a
known type is the corresponding processor. -/

theorem processEvent_created (s : Conversation) (e : Event) (ctx : Option (List Int))
    (hev : ¬ e.event_id = "") (ht : e.type = "conversation.item.created") :
    Conversation.processEvent s e ctx = procItemCreated s e := by
  unfold Conversation.processEvent
  rw [if_neg hev, ht, if_neg (by decide), if_pos rfl]

theorem processEvent_deleted (s : Conversation) (e : Event) (ctx : Option (List Int))
    (hev : ¬ e.event_id = "") (ht : e.type = "conversation.item.deleted") :
    Conversation.processEvent s e ctx = procItemDeleted s e := by
  unfold Conversation.processEvent
  rw [if_neg hev, ht, if_neg (by decide), if_neg (by decide), if_pos rfl]

theorem processEvent_truncated (s : Conversation) (e : Event) (ctx : Option (List Int))
    (hev : ¬ e.event_id = "") (ht : e.type = "conversation.item.truncated") :
    Conversation.processEvent s e ctx = procItemTruncated s e := by
  unfold Conversation.processEvent
  rw [if_neg hev, ht, if_neg (by decide), if_neg (by decide), if_neg (by decide),
      if_neg (by decide), if_pos rfl]

theorem processEvent_audioDelta (s : Conversation) (e : Event) (ctx : Option (List Int))
    (hev : ¬ e.event_id = "") (ht : e.type = "response.audio.delta") :
    Conversation.processEvent s e ctx = procAudioDelta s e := by
  unfold Conversation.processEvent
  rw [if_neg hev, ht, if_neg (by decide), if_neg (by decide), if_neg (by decide),
      if_neg (by decide), if_neg (by decide), if_neg (by decide), if_neg (by decide),
      if_pos rfl]

theorem processEvent_audioTranscriptDelta (s : Conversation) (e : Event)
    (ctx : Option (List Int))
    (hev : ¬ e.event_id = "") (ht : e.type = "response.audio_transcript.delta") :
    Conversation.processEvent s e ctx = procAudioTranscriptDelta s e := by
  unfold Conversation.processEvent
  rw [if_neg hev, ht, if_neg (by decide), if_neg (by decide), if_neg (by decide),
      if_neg (by decide), if_neg (by decide), if_neg (by decide), if_neg (by decide),
      if_neg (by decide), if_pos rfl]

theorem processEvent_fcArgsDelta (s : Conversation) (e : Event) (ctx : Option (List Int))
    (hev : ¬ e.event_id = "") (ht : e.type = "response.function_call_arguments.delta") :
    Conversation.processEvent s e ctx = procFunctionCallArgumentsDelta s e := by
  unfold Conversation.processEvent
  rw [if_neg hev, ht, if_neg (by decide), if_neg (by decide), if_neg (by decide),
      if_neg (by decide), if_neg (by decide), if_neg (by decide), if_neg (by decide),
      if_neg (by decide), if_neg (by decide), if_neg (by decide), if_neg (by decide),
      if_pos rfl]

theorem processEvent_outputItemDone (s : Conversation) (e : Event) (ctx : Option (List Int))
    (hev : ¬ e.event_id = "") (ht : e.type = "response.output_item.done") :
    Conversation.processEvent s e ctx = procOutputItemDone s e := by
  unfold Conversation.processEvent
  rw [if_neg hev, ht, if_neg (by decide), if_neg (by decide), if_neg (by decide),
      if_neg (by decide), if_neg (by decide), if_neg (by decide), if_neg (by decide),
      if_neg (by decide), if_neg (by decide), if_neg (by decide), if_neg (by decide),
      if_neg (by decide), if_neg (by decide), if_pos rfl]

theorem processEvent_textDelta (s : Conversation) (e : Event) (ctx : Option (List Int))
    (hev : ¬ e.event_id = "") (ht : e.type = "response.text.delta") :
    Conversation.processEvent s e ctx = procTextDelta s e := by
  unfold Conversation.processEvent
  rw [if_neg hev, ht, if_neg (by decide), if_neg (by decide), if_neg (by decide),
      if_neg (by decide), if_neg (by decide), if_neg (by decide), if_neg (by decide),
      if_neg (by decide), if_neg (by decide), if_neg (by decide), if_neg (by decide),
      if_neg (by decide), if_neg (by decide), if_neg (by decide), if_pos rfl]

/-- One step of driving the store: the post-state of `processEvent` for an
event together with its optional input-audio context. -/
def convStep (s : Conversation) (p : Event × Option (List Int)) : Conversation :=
  (Conversation.processEvent s p.1 p.2).1

theorem convInv_foldl (evs : List (Event × Option (List Int))) (s : Conversation)
    (h : ConvInv s) : ConvInv (evs.foldl convStep s) := by
  induction evs generalizing s with
  | nil => exact h
  | cons p r ih => exact ih _ (convInv_processEvent s p.1 p.2 h)

/-- C6: item ids are unique within the store at all times: after any
sequence of `processEvent` calls starting from a cleared store, the
ordered item list has pairwise-distinct ids and agrees with the id index;
and a second `conversation.item.created` for an id already in the store
leaves the id index and the ordered item list unchanged. -/
theorem item_ids_unique (evs : List (Event × Option (List Int))) :
    ((evs.foldl convStep {}).items.map Item.id).Nodup
    ∧ (evs.foldl convStep {}).itemLookup
        = (evs.foldl convStep {}).items.map (fun i => (i.id, i))
    ∧ (∀ (s : Conversation) (e : Event) (it0 : Item) (ctx : Option (List Int)),
        ¬ e.event_id = "" → e.type = "conversation.item.created" → e.item = some it0 →
        (alFind s.itemLookup it0.id).isSome →
        (Conversation.processEvent s e ctx).1.itemLookup = s.itemLookup
        ∧ (Conversation.processEvent s e ctx).1.items = s.items) :=
  have hInv := convInv_foldl evs {} convInv_clear
  ⟨hInv.2, hInv.1, by
    intro s e it0 ctx hev ht hit hsome
    rw [processEvent_created s e ctx hev ht]
    unfold procItemCreated
    rw [hit]
    obtain ⟨v, hv⟩ := Option.isSome_iff_exists.mp hsome
    simp only [hv, Option.isNone_some, Bool.false_eq_true, if_false]
    constructor <;> trivial⟩

/-- Witness for `item_ids_unique`: a duplicate `conversation.item.created`
on a singleton store is a no-op on the index and the list. -/
theorem item_ids_unique_witness :
    (Conversation.processEvent
        { itemLookup := [("a", { id := "a", type := "message" })]
          items := [{ id := "a", type := "message" }] }
        { event_id := "e2", type := "conversation.item.created"
          item := some { id := "a", type := "message", role := some "user" } }
        none).1.itemLookup = [("a", { id := "a", type := "message" })]
    ∧ (Conversation.processEvent
        { itemLookup := [("a", { id := "a", type := "message" })]
          items := [{ id := "a", type := "message" }] }
        { event_id := "e2", type := "conversation.item.created"
          item := some { id := "a", type := "message", role := some "user" } }
        none).1.items = [{ id := "a", type := "message" }] :=
  (item_ids_unique []).2.2
    { itemLookup := [("a", { id := "a", type := "message" })]
      items := [{ id := "a", type := "message" }] }
    { event_id := "e2", type := "conversation.item.created"
      item := some { id := "a", type := "message", role := some "user" } }
    { id := "a", type := "message", role := some "user" } none
    (by decide) rfl rfl (by decide)

/-- C5: a `conversation.item.deleted`, `conversation.item.truncated` or
`response.output_item.done` event whose item id is absent from the store
raises a StateError synchronously and leaves the entire store state
exactly as it was. -/
theorem unknown_id_state_error (s : Conversation) (e : Event) (ctx : Option (List Int))
    (hev : ¬ e.event_id = "")
    (h : ((e.type = "conversation.item.deleted" ∨ e.type = "conversation.item.truncated")
            ∧ alFind s.itemLookup (jsKey e.item_id) = none)
         ∨ (e.type = "response.output_item.done"
            ∧ ∀ it, e.item = some it → alFind s.itemLookup it.id = none)) :
    (Conversation.processEvent s e ctx).1 = s
    ∧ ∃ msg, (Conversation.processEvent s e ctx).2 = .error msg := by
  rcases h with ⟨hty | hty, hfind⟩ | ⟨hty, hfind⟩
  · rw [processEvent_deleted s e ctx hev hty]
    unfold procItemDeleted
    rw [hfind]
    exact ⟨rfl, _, rfl⟩
  · rw [processEvent_truncated s e ctx hev hty]
    unfold procItemTruncated
    rw [hfind]
    exact ⟨rfl, _, rfl⟩
  · rw [processEvent_outputItemDone s e ctx hev hty]
    unfold procOutputItemDone
    cases hit : e.item with
    | none => exact ⟨rfl, _, rfl⟩
    | some it =>
      dsimp only
      rw [hfind it hit]
      exact ⟨rfl, _, rfl⟩

/-- Witness for `unknown_id_state_error`: deleting an unknown id from the
empty store errors and changes nothing. -/
theorem unknown_id_state_error_witness :
    (Conversation.processEvent {}
        { event_id := "e1", type := "conversation.item.deleted", item_id := some "zzz" }
        none).1 = {}
    ∧ ∃ msg, (Conversation.processEvent {}
        { event_id := "e1", type := "conversation.item.deleted", item_id := some "zzz" }
        none).2 = .error msg :=
  unknown_id_state_error {}
    { event_id := "e1", type := "conversation.item.deleted", item_id := some "zzz" }
    none (by decide) (.inl ⟨.inl rfl, rfl⟩)

theorem alFind_setItem {s : Conversation} {k : String} {v : Item} (w : Item)
    (h : alFind s.itemLookup k = some v) (hw : w.id = k) :
    alFind (s.setItem w).itemLookup k = some w := by
  unfold Conversation.setItem
  subst hw
  exact alFind_update_self _ _ _ _ h

/-- Event shape of `conversation.item.truncated(id, audio_end_ms)`. -/
def truncEvent (id : String) (ms : Nat) : Event :=
  { event_id := "e", type := "conversation.item.truncated"
    item_id := some id, audio_end_ms := some ms }

/-- C8: truncating an item at `audio_end_ms` always clears the formatted
transcript, and leaves exactly `floor (audio_end_ms * 24000 / 1000)` audio
samples whenever the original formatted audio was at least that long. -/
theorem truncated_audio_length (s : Conversation) (id : String) (ms : Nat) (it : Item)
    (hit : alFind s.itemLookup id = some it) (hid : it.id = id) :
    ∃ it', alFind ((Conversation.processEvent s (truncEvent id ms) none).1).itemLookup id
        = some it'
      ∧ it'.formatted.transcript = .str ""
      ∧ (∀ a, it.formatted.audio = some a →
          ms * Conversation.defaultFrequency / 1000 ≤ a.length →
          it'.formatted.audio.map List.length
            = some (ms * Conversation.defaultFrequency / 1000)) := by
  rw [processEvent_truncated s (truncEvent id ms) none
    (show ¬ ("e" : String) = "" by decide) rfl]
  unfold procItemTruncated
  simp only [truncEvent, jsKey, Option.getD_some]
  rw [hit]
  dsimp only
  cases haud : it.formatted.audio with
  | none =>
    dsimp only
    refine ⟨_, alFind_setItem _ hit hid, rfl, ?_⟩
    intro a ha _
    cases ha
  | some a =>
    dsimp only
    refine ⟨_, alFind_setItem _ hit hid, rfl, ?_⟩
    intro a' ha' hle
    injection ha' with hh
    subst hh
    simp [List.length_take, Nat.min_eq_left hle]

/-- Witness for `truncated_audio_length`: truncating a 48-sample item at
1 ms leaves 24 samples and an empty transcript. -/
theorem truncated_audio_length_witness :
    ∃ it', alFind ((Conversation.processEvent
        { itemLookup := [("a", { id := "a", type := "message"
                                 formatted := { audio := some (List.replicate 48 0) } })]
          items := [{ id := "a", type := "message"
                      formatted := { audio := some (List.replicate 48 0) } }] }
        (truncEvent "a" 1) none).1).itemLookup "a" = some it'
      ∧ it'.formatted.transcript = .str ""
      ∧ it'.formatted.audio.map List.length = some 24 := by
  obtain ⟨it', h1, h2, h3⟩ := truncated_audio_length
    { itemLookup := [("a", { id := "a", type := "message"
                             formatted := { audio := some (List.replicate 48 0) } })]
      items := [{ id := "a", type := "message"
                  formatted := { audio := some (List.replicate 48 0) } }] }
    "a" 1
    { id := "a", type := "message", formatted := { audio := some (List.replicate 48 0) } }
    rfl rfl
  exact ⟨it', h1, h2, h3 (List.replicate 48 0) rfl (by decide)⟩

/-- One streaming delta event addressed to an item: a text delta at a
content index, an audio-transcript delta at a content index, a
function-call-arguments delta, or a base64-encoded audio delta. -/
inductive DeltaEv where
  | text (i : Nat) (d : String)
  | atrans (i : Nat) (d : String)
  | fargs (d : String)
  | audio (d : String)
deriving DecidableEq

/-- Wire event of a delta addressed to item `id`. -/
def DeltaEv.toEvent (id : String) : DeltaEv → Event
  | .text i d => { event_id := "e", type := "response.text.delta"
                   item_id := some id, content_index := some i, delta := some d }
  | .atrans i d => { event_id := "e", type := "response.audio_transcript.delta"
                     item_id := some id, content_index := some i, delta := some d }
  | .fargs d => { event_id := "e", type := "response.function_call_arguments.delta"
                  item_id := some id, delta := some d }
  | .audio d => { event_id := "e", type := "response.audio.delta"
                  item_id := some id, delta := some d }

/-- Concatenation, in arrival order, of the text deltas of a sequence. -/
def textCat : List DeltaEv → String
  | [] => ""
  | .text _ d :: r => d ++ textCat r
  | _ :: r => textCat r

/-- Concatenation, in arrival order, of the audio-transcript deltas. -/
def atransCat : List DeltaEv → String
  | [] => ""
  | .atrans _ d :: r => d ++ atransCat r
  | _ :: r => atransCat r

/-- Concatenation, in arrival order, of the tool-arguments deltas. -/
def argsCat : List DeltaEv → String
  | [] => ""
  | .fargs d :: r => d ++ argsCat r
  | _ :: r => argsCat r

/-- Concatenation, in arrival order, of the decoded audio deltas. -/
def audioCat : List DeltaEv → List Int
  | [] => []
  | .audio d :: r => base64ToPcm16 d ++ audioCat r
  | _ :: r => audioCat r

/-- Drive the store through a list of delta events addressed to `id`,
stopping with `none` at the first event whose processing throws. -/
def runDeltas (s : Conversation) (id : String) : List DeltaEv → Option Conversation
  | [] => some s
  | ev :: r =>
    match Conversation.processEvent s (ev.toEvent id) none with
    | (s1, .ok _) => runDeltas s1 id r
    | (_, .error _) => none

theorem stepText {s : Conversation} {id : String} {it : Item} (i : Nat) (d : String)
    {s1 : Conversation} {r : ProcResult}
    (hit : alFind s.itemLookup id = some it) (hid : it.id = id)
    (hp : Conversation.processEvent s ((DeltaEv.text i d).toEvent id) none = (s1, .ok r)) :
    ∃ it', alFind s1.itemLookup id = some it' ∧ it'.id = id
      ∧ it'.formatted.text = it.formatted.text ++ d
      ∧ it'.formatted.transcript = it.formatted.transcript
      ∧ it'.formatted.tool = it.formatted.tool
      ∧ it'.formatted.audio = it.formatted.audio := by
  rw [processEvent_textDelta s ((DeltaEv.text i d).toEvent id) none
    (show ¬ ("e" : String) = "" by decide) rfl] at hp
  unfold procTextDelta at hp
  simp only [DeltaEv.toEvent, jsKey, Option.getD_some, Option.some_bind] at hp
  rw [hit] at hp
  dsimp only at hp
  cases hg : it.content.get? i with
  | none =>
    rw [hg] at hp
    simp only [Option.map_none'] at hp
    exact absurd (congrArg Prod.snd hp) (by simp)
  | some part =>
    rw [hg] at hp
    simp only [Option.map_some'] at hp
    injection hp with h1 h2
    subst h1
    exact ⟨_, alFind_setItem _ hit hid, hid, rfl, rfl, rfl, rfl⟩

theorem stepAtrans {s : Conversation} {id : String} {it : Item} (i : Nat) (d : String)
    {s1 : Conversation} {r : ProcResult}
    (hit : alFind s.itemLookup id = some it) (hid : it.id = id)
    (hp : Conversation.processEvent s ((DeltaEv.atrans i d).toEvent id) none = (s1, .ok r)) :
    ∃ it', alFind s1.itemLookup id = some it' ∧ it'.id = id
      ∧ it'.formatted.text = it.formatted.text
      ∧ it'.formatted.transcript = it.formatted.transcript.addStr d
      ∧ it'.formatted.tool = it.formatted.tool
      ∧ it'.formatted.audio = it.formatted.audio := by
  rw [processEvent_audioTranscriptDelta s ((DeltaEv.atrans i d).toEvent id) none
    (show ¬ ("e" : String) = "" by decide) rfl] at hp
  unfold procAudioTranscriptDelta at hp
  simp only [DeltaEv.toEvent, jsKey, Option.getD_some, Option.some_bind] at hp
  rw [hit] at hp
  dsimp only at hp
  cases hg : it.content.get? i with
  | none =>
    rw [hg] at hp
    simp only [Option.map_none'] at hp
    exact absurd (congrArg Prod.snd hp) (by simp)
  | some part =>
    rw [hg] at hp
    simp only [Option.map_some'] at hp
    injection hp with h1 h2
    subst h1
    exact ⟨_, alFind_setItem _ hit hid, hid, rfl, rfl, rfl, rfl⟩

theorem stepFargs {s : Conversation} {id : String} {it : Item} (d : String)
    {s1 : Conversation} {r : ProcResult}
    (hit : alFind s.itemLookup id = some it) (hid : it.id = id)
    (hp : Conversation.processEvent s ((DeltaEv.fargs d).toEvent id) none = (s1, .ok r)) :
    ∃ it', alFind s1.itemLookup id = some it' ∧ it'.id = id
      ∧ it'.formatted.text = it.formatted.text
      ∧ it'.formatted.transcript = it.formatted.transcript
      ∧ (∃ tl, it.formatted.tool = some tl
          ∧ it'.formatted.tool = some { tl with arguments := tl.arguments ++ d })
      ∧ it'.formatted.audio = it.formatted.audio := by
  rw [processEvent_fcArgsDelta s ((DeltaEv.fargs d).toEvent id) none
    (show ¬ ("e" : String) = "" by decide) rfl] at hp
  unfold procFunctionCallArgumentsDelta at hp
  simp only [DeltaEv.toEvent, jsKey, Option.getD_some] at hp
  rw [hit] at hp
  dsimp only at hp
  cases htool : it.formatted.tool with
  | none =>
    rw [htool] at hp
    exact absurd (congrArg Prod.snd hp) (by simp)
  | some tl =>
    rw [htool] at hp
    injection hp with h1 h2
    subst h1
    exact ⟨_, alFind_setItem _ hit hid, hid, rfl, rfl, ⟨tl, rfl, rfl⟩, rfl⟩

theorem stepAudio {s : Conversation} {id : String} {it : Item} (d : String)
    {s1 : Conversation} {r : ProcResult}
    (hit : alFind s.itemLookup id = some it) (hid : it.id = id)
    (hp : Conversation.processEvent s ((DeltaEv.audio d).toEvent id) none = (s1, .ok r)) :
    ∃ it', alFind s1.itemLookup id = some it' ∧ it'.id = id
      ∧ it'.formatted.text = it.formatted.text
      ∧ it'.formatted.transcript = it.formatted.transcript
      ∧ it'.formatted.tool = it.formatted.tool
      ∧ (∃ a, it.formatted.audio = some a
          ∧ it'.formatted.audio = some (a ++ base64ToPcm16 d)) := by
  rw [processEvent_audioDelta s ((DeltaEv.audio d).toEvent id) none
    (show ¬ ("e" : String) = "" by decide) rfl] at hp
  unfold procAudioDelta at hp
  simp only [DeltaEv.toEvent, jsKey, Option.getD_some] at hp
  rw [hit] at hp
  dsimp only at hp
  cases haud : it.formatted.audio with
  | none =>
    rw [haud] at hp
    exact absurd (congrArg Prod.snd hp) (by simp)
  | some a =>
    rw [haud] at hp
    injection hp with h1 h2
    subst h1
    exact ⟨_, alFind_setItem _ hit hid, hid, rfl, rfl, rfl, ⟨a, rfl, rfl⟩⟩

/-- C2: for an item present in the store, processing any sequence of
text / audio-transcript / function-call-arguments / audio delta events
addressed to it (each step succeeding) leaves `formatted.text`,
`formatted.transcript`, `formatted.tool.arguments` and `formatted.audio`
equal to the exact concatenation, in arrival order, of the corresponding
deltas (audio deltas base64-decoded to PCM16 samples and appended, never
overwritten) onto their initial values. -/
theorem delta_concat (evs : List DeltaEv) (s : Conversation) (id : String) (it : Item)
    (a0 : List Int) (t0 : String) (tl0 : FormattedTool) (s' : Conversation)
    (hit : alFind s.itemLookup id = some it) (hid : it.id = id)
    (ha : it.formatted.audio = some a0)
    (ht : it.formatted.transcript = .str t0)
    (htl : it.formatted.tool = some tl0)
    (hrun : runDeltas s id evs = some s') :
    ∃ it', alFind s'.itemLookup id = some it'
      ∧ it'.formatted.text = it.formatted.text ++ textCat evs
      ∧ it'.formatted.transcript = .str (t0 ++ atransCat evs)
      ∧ it'.formatted.tool = some { tl0 with arguments := tl0.arguments ++ argsCat evs }
      ∧ it'.formatted.audio = some (a0 ++ audioCat evs) := by
  induction evs generalizing s it a0 t0 tl0 with
  | nil =>
    injection hrun with hs
    subst hs
    refine ⟨it, hit, ?_, ?_, ?_, ?_⟩
    · simp [textCat, String.append_empty]
    · simpa [atransCat, String.append_empty] using ht
    · simpa [argsCat, String.append_empty] using htl
    · simpa [audioCat] using ha
  | cons ev r ih =>
    unfold runDeltas at hrun
    cases hp : Conversation.processEvent s (ev.toEvent id) none with
    | mk s1 res =>
      rw [hp] at hrun
      cases res with
      | error m => simp at hrun
      | ok r0 =>
        dsimp only at hrun
        cases ev with
        | text i d =>
          obtain ⟨it1, hit1, hid1, h1t, h1tr, h1tl, h1a⟩ := stepText i d hit hid hp
          obtain ⟨it', hF, hT, hTr, hTl, hA⟩ :=
            ih s1 it1 a0 t0 tl0 hit1 hid1 (h1a.trans ha) (h1tr.trans ht) (h1tl.trans htl) hrun
          refine ⟨it', hF, ?_, hTr, hTl, hA⟩
          rw [hT, h1t, textCat]
          exact String.append_assoc _ _ _
        | atrans i d =>
          obtain ⟨it1, hit1, hid1, h1t, h1tr, h1tl, h1a⟩ := stepAtrans i d hit hid hp
          have htr1 : it1.formatted.transcript = .str (t0 ++ d) := by
            rw [h1tr, ht]
            rfl
          obtain ⟨it', hF, hT, hTr, hTl, hA⟩ :=
            ih s1 it1 a0 (t0 ++ d) tl0 hit1 hid1 (h1a.trans ha) htr1 (h1tl.trans htl) hrun
          refine ⟨it', hF, ?_, ?_, hTl, hA⟩
          · rw [hT, h1t]
            rfl
          · rw [hTr]
            exact congrArg JsVal.str (String.append_assoc t0 d (atransCat r))
        | fargs d =>
          obtain ⟨it1, hit1, hid1, h1t, h1tr, h1tl, h1a⟩ := stepFargs d hit hid hp
          obtain ⟨tl, htl_eq, h1tool⟩ := h1tl
          rw [htl] at htl_eq
          injection htl_eq with htl_eq'
          subst htl_eq'
          obtain ⟨it', hF, hT, hTr, hTl, hA⟩ :=
            ih s1 it1 a0 t0 { tl0 with arguments := tl0.arguments ++ d } hit1 hid1
              (h1a.trans ha) (h1tr.trans ht) h1tool hrun
          refine ⟨it', hF, ?_, hTr, ?_, hA⟩
          · rw [hT, h1t]
            rfl
          · rw [hTl]
            exact congrArg some
              (congrArg (FormattedTool.mk tl0.type tl0.name tl0.call_id)
                (String.append_assoc tl0.arguments d (argsCat r)))
        | audio d =>
          obtain ⟨it1, hit1, hid1, h1t, h1tr, h1tl, h1a⟩ := stepAudio d hit hid hp
          obtain ⟨a, ha_eq, h1audio⟩ := h1a
          rw [ha] at ha_eq
          injection ha_eq with ha_eq'
          subst ha_eq'
          obtain ⟨it', hF, hT, hTr, hTl, hA⟩ :=
            ih s1 it1 (a0 ++ base64ToPcm16 d) t0 tl0 hit1 hid1 h1audio (h1tr.trans ht)
              (h1tl.trans htl) hrun
          refine ⟨it', hF, ?_, hTr, hTl, ?_⟩
          · rw [hT, h1t]
            rfl
          · rw [hA]
            exact congrArg some (List.append_assoc a0 (base64ToPcm16 d) (audioCat r))

/-- Concrete function-call item used to witness the delta-concatenation
theorem. -/
def c2Item : Item :=
  { id := "b", type := "function_call"
    content := [{ type := "text", text := .str "", transcript := .str "" }]
    formatted := { audio := some [], text := "", transcript := .str ""
                   tool := some { type := "function", name := some "f"
                                  call_id := some "c", arguments := "" } } }

/-- Singleton store holding `c2Item`. -/
def c2State : Conversation :=
  { itemLookup := [("b", c2Item)], items := [c2Item] }

/-- Concrete delta sequence: one delta of each kind. -/
def c2Evs : List DeltaEv :=
  [.text 0 "a", .atrans 0 "b", .fargs "c", .audio "AAD/fw=="]

/-- Witness for `delta_concat`: driving one delta of each kind through a
singleton store accumulates exactly those deltas (the audio one decoding
to the samples `[0, 32767]`). -/
theorem delta_concat_witness :
    ∃ s', runDeltas c2State "b" c2Evs = some s'
      ∧ ∃ it', alFind s'.itemLookup "b" = some it'
        ∧ it'.formatted.text = "a"
        ∧ it'.formatted.transcript = JsVal.str "b"
        ∧ it'.formatted.tool = some { type := "function", name := some "f"
                                      call_id := some "c", arguments := "c" }
        ∧ it'.formatted.audio = some [0, 32767] := by
  cases hrun : runDeltas c2State "b" c2Evs with
  | none => exact absurd hrun (by decide)
  | some s' =>
    obtain ⟨it', hF, hT, hTr, hTl, hA⟩ :=
      delta_concat c2Evs c2State "b" c2Item [] ""
        { type := "function", name := some "f", call_id := some "c", arguments := "" } s'
        (by decide) (by decide) (by decide) (by decide) (by decide) hrun
    exact ⟨s', rfl, it', hF, hT.trans (by decide), hTr.trans (by decide),
      hTl.trans (by decide), hA.trans (by decide)⟩

/-- Transcription-completed event for the not-yet-created item `"itemA"`. -/
def c1TranscriptEvent : Event :=
  { event_id := "e1", type := "conversation.item.input_audio_transcription.completed"
    item_id := some "itemA", content_index := some 0, transcript := some "hello" }

/-- Subsequent creation event for the same item id. -/
def c1CreatedEvent : Event :=
  { event_id := "e2", type := "conversation.item.created"
    item := some { id := "itemA", type := "message", role := some "user" } }

/-- C1 (evaluation at the failing input): a `transcription.completed` for
an unknown id does not raise and buffers the transcript, and the later
`conversation.item.created` for that id discards the queue entry — but the
created item's `formatted.transcript` is the JavaScript `undefined` (the
source reads `queuedTranscriptItems.transcript`, i.e. the literal key
`"transcript"`, instead of the entry for the item id), not the buffered
`"hello"`. -/
theorem queued_transcript_consumed_undefined :
    (Conversation.processEvent {} c1TranscriptEvent none).2
      = .ok { item := none, delta := none }
    ∧ (Conversation.processEvent {} c1TranscriptEvent none).1.queuedTranscriptItems
      = [("itemA", { transcript := "hello" })]
    ∧ (Conversation.processEvent
          (Conversation.processEvent {} c1TranscriptEvent none).1 c1CreatedEvent
          none).1.queuedTranscriptItems = []
    ∧ (alFind (Conversation.processEvent
          (Conversation.processEvent {} c1TranscriptEvent none).1 c1CreatedEvent
          none).1.itemLookup "itemA").map (fun it => it.formatted.transcript)
      = some JsVal.undef
    ∧ ¬ JsVal.undef = JsVal.str "hello" :=
  ⟨rfl, rfl, rfl, rfl, by decide⟩

/-- C7: `dispatch` fires every persistent handler in subscription order,
then every one-shot handler in subscription order, then discards the
one-shot set for that name while leaving persistent handlers in place;
`on` / `onNext` append in registration order; and the concrete
`on("x", h1)` / `onNext("x", h2)` scenario invokes `h1` then `h2` on the
first dispatch and only `h1` on the second. -/
theorem dispatch_order {α : Type} (st : EventHandlerState) (name : String) (p : α)
    (hnew : Nat) :
    (st.dispatch name p).2
      = ((alFind st.eventHandlers name).getD []).map (fun h => (h, p))
        ++ ((alFind st.nextEventHandlers name).getD []).map (fun h => (h, p))
    ∧ alFind (st.dispatch name p).1.nextEventHandlers name = none
    ∧ (st.dispatch name p).1.eventHandlers = st.eventHandlers
    ∧ alFind (st.on name hnew).eventHandlers name
        = some (((alFind st.eventHandlers name).getD []) ++ [hnew])
    ∧ alFind (st.onNext name hnew).nextEventHandlers name
        = some (((alFind st.nextEventHandlers name).getD []) ++ [hnew])
    ∧ (((({} : EventHandlerState).on "x" 1).onNext "x" 2).dispatch "x" (1 : Nat)).2
        = [(1, 1), (2, 1)]
    ∧ ((((({} : EventHandlerState).on "x" 1).onNext "x" 2).dispatch "x" (1 : Nat)).1.dispatch
          "x" (2 : Nat)).2 = [(1, 2)] :=
  ⟨rfl, alFind_alErase_self _ _, rfl, alFind_alSet_self _ _ _, alFind_alSet_self _ _ _,
    by decide, by decide⟩

/-- C10: `disconnect` is a total function of the client state (no step of
its body can throw, even when already disconnected); afterwards the
session-created flag is false, the link is closed, and every part of the
conversation store is empty. -/
theorem disconnect_clears (s : ClientState) :
    (RealtimeClient.disconnect s).sessionCreated = false
    ∧ (RealtimeClient.disconnect s).connected = false
    ∧ (RealtimeClient.disconnect s).conversation.itemLookup = []
    ∧ (RealtimeClient.disconnect s).conversation.items = []
    ∧ (RealtimeClient.disconnect s).conversation.responseLookup = []
    ∧ (RealtimeClient.disconnect s).conversation.responses = []
    ∧ (RealtimeClient.disconnect s).conversation.queuedSpeechItems = []
    ∧ (RealtimeClient.disconnect s).conversation.queuedTranscriptItems = []
    ∧ (RealtimeClient.disconnect s).conversation.queuedInputAudio = none :=
  ⟨rfl, rfl, rfl, rfl, rfl, rfl, rfl, rfl, rfl⟩

/-- C9: `updateSession` overwrites exactly the explicitly supplied
configuration fields (the untouched `model` field included for
completeness), every omitted field keeps its previous value, and when the
link is not connected no command is sent while the merged configuration is
still retained. The equations hold on every path, including the
duplicate-inline-tool error path. -/
theorem updateSession_merge (s : ClientState) (a : SessionUpdateArgs) :
    (RealtimeClient.updateSession s a).1.sessionConfig.model = s.sessionConfig.model
    ∧ (RealtimeClient.updateSession s a).1.sessionConfig.modalities
        = a.modalities.getD s.sessionConfig.modalities
    ∧ (RealtimeClient.updateSession s a).1.sessionConfig.instructions
        = a.instructions.getD s.sessionConfig.instructions
    ∧ (RealtimeClient.updateSession s a).1.sessionConfig.voice
        = a.voice.getD s.sessionConfig.voice
    ∧ (RealtimeClient.updateSession s a).1.sessionConfig.input_audio_format
        = a.input_audio_format.getD s.sessionConfig.input_audio_format
    ∧ (RealtimeClient.updateSession s a).1.sessionConfig.output_audio_format
        = a.output_audio_format.getD s.sessionConfig.output_audio_format
    ∧ (RealtimeClient.updateSession s a).1.sessionConfig.input_audio_transcription
        = a.input_audio_transcription.getD s.sessionConfig.input_audio_transcription
    ∧ (RealtimeClient.updateSession s a).1.sessionConfig.turn_detection
        = a.turn_detection.getD s.sessionConfig.turn_detection
    ∧ (RealtimeClient.updateSession s a).1.sessionConfig.tools
        = a.tools.getD s.sessionConfig.tools
    ∧ (RealtimeClient.updateSession s a).1.sessionConfig.tool_choice
        = a.tool_choice.getD s.sessionConfig.tool_choice
    ∧ (RealtimeClient.updateSession s a).1.sessionConfig.temperature
        = a.temperature.getD s.sessionConfig.temperature
    ∧ (RealtimeClient.updateSession s a).1.sessionConfig.max_response_output_tokens
        = a.max_response_output_tokens.getD s.sessionConfig.max_response_output_tokens
    ∧ (s.connected = false → (RealtimeClient.updateSession s a).1.sent = s.sent) := by
  unfold RealtimeClient.updateSession ClientState.sendCmd
  dsimp only
  split
  · exact ⟨rfl, rfl, rfl, rfl, rfl, rfl, rfl, rfl, rfl, rfl, rfl, rfl, fun _ => rfl⟩
  · split
    · rename_i hconn
      refine ⟨rfl, rfl, rfl, rfl, rfl, rfl, rfl, rfl, rfl, rfl, rfl, rfl, ?_⟩
      intro h
      rw [h] at hconn
      cases hconn
    · exact ⟨rfl, rfl, rfl, rfl, rfl, rfl, rfl, rfl, rfl, rfl, rfl, rfl, fun _ => rfl⟩

/-- Witness for `updateSession_merge`: supplying only `voice` on a
disconnected client overwrites `voice`, keeps the default temperature, and
sends nothing. -/
theorem updateSession_merge_witness :
    (RealtimeClient.updateSession { connected := false } { voice := some "echo" }).1.sessionConfig.voice
      = "echo"
    ∧ (RealtimeClient.updateSession { connected := false }
        { voice := some "echo" }).1.sessionConfig.temperature = (4 : Rat) / 5
    ∧ (RealtimeClient.updateSession { connected := false } { voice := some "echo" }).1.sent
      = [] := by
  have h := updateSession_merge { connected := false } { voice := some "echo" }
  refine ⟨h.2.2.2.1.trans rfl, ?_, (h.2.2.2.2.2.2.2.2.2.2.2.2 rfl).trans rfl⟩
  exact h.2.2.2.2.2.2.2.2.2.2.1.trans rfl

/-- Assistant message without an audio content part. -/
def c3Item : Item :=
  { id := "itm", type := "message", role := some "assistant"
    content := [{ type := "text", text := .str "hi" }] }

/-- Connected client whose store holds only `c3Item`. -/
def c3State : ClientState :=
  { connected := true
    conversation := { itemLookup := [("itm", c3Item)], items := [c3Item] } }

/-- C3 counterexample: cancelling by the id of an assistant message with
no audio content part raises the validation error, yet a `response.cancel`
command has already been sent — the claim that no command is sent on a
validation error is false. -/
theorem cancelResponse_sends_before_audio_check :
    (RealtimeClient.cancelResponse c3State "itm" 0).2
      = .error "Could not find audio on item to cancel"
    ∧ (RealtimeClient.cancelResponse c3State "itm" 0).1.sent = [Command.responseCancel] :=
  ⟨rfl, rfl⟩

/-- C3 (amended): with an id on a connected client, an unknown item, a
non-message item, or a non-assistant role raises before any command is
sent; an assistant message without an audio content part raises only after
`response.cancel` was sent; otherwise `response.cancel` is followed by a
`conversation.item.truncate` whose `audio_end_ms` is
`floor (sampleCount / 24000 * 1000)` and whose `content_index` is the
index of the first audio content part. -/
theorem cancelResponse_spec (s : ClientState) (id : String) (n : Nat)
    (hconn : s.connected = true) (hid : ¬ id = "") :
    (s.conversation.getItem id = none →
      RealtimeClient.cancelResponse s id n = (s, .error "Could not find item"))
    ∧ (∀ item, s.conversation.getItem id = some item →
        (¬ item.type = "message" →
          RealtimeClient.cancelResponse s id n
            = (s, .error "Can only cancelResponse messages with type message"))
        ∧ (item.type = "message" → ¬ item.role = some "assistant" →
          RealtimeClient.cancelResponse s id n
            = (s, .error "Can only cancelResponse messages with role assistant"))
        ∧ (item.type = "message" → item.role = some "assistant" →
          item.content.findIdx? (fun c => c.type = "audio") = none →
          RealtimeClient.cancelResponse s id n
            = ({ s with sent := s.sent ++ [Command.responseCancel] },
               .error "Could not find audio on item to cancel"))
        ∧ (∀ i, item.type = "message" → item.role = some "assistant" →
          item.content.findIdx? (fun c => c.type = "audio") = some i →
          RealtimeClient.cancelResponse s id n
            = ({ s with sent := s.sent ++ [Command.responseCancel,
                  Command.itemTruncate id i (n * 1000 / Conversation.defaultFrequency)] },
               .ok (some item)))) := by
  unfold RealtimeClient.cancelResponse ClientState.sendCmd
  rw [if_neg hid]
  constructor
  · intro hnone
    rw [hnone]
  · intro item hitem
    rw [hitem]
    dsimp only
    refine ⟨?_, ?_, ?_, ?_⟩
    · intro hty
      rw [if_pos hty]
    · intro hty hrole
      rw [if_neg (fun hh => hh hty), if_pos hrole]
    · intro hty hrole hfind
      rw [if_neg (fun hh => hh hty), if_neg (fun hh => hh hrole), if_pos hconn]
      dsimp only
      rw [hfind]
    · intro i hty hrole hfind
      rw [if_neg (fun hh => hh hty), if_neg (fun hh => hh hrole), if_pos hconn]
      dsimp only
      rw [hfind]
      dsimp only
      rw [if_pos hconn]
      dsimp only
      rw [List.append_assoc]
      rfl

/-- Assistant message whose first audio content part sits at index 0. -/
def c3AudioItem : Item :=
  { id := "itm2", type := "message", role := some "assistant"
    content := [{ type := "audio" }] }

/-- Connected client whose store holds only `c3AudioItem`. -/
def c3AudioState : ClientState :=
  { connected := true
    conversation := { itemLookup := [("itm2", c3AudioItem)], items := [c3AudioItem] } }

/-- Witness for `cancelResponse_spec`: cancelling a 48000-sample assistant
audio message sends a cancel and then a truncate at 2000 ms, index 0. -/
theorem cancelResponse_spec_witness :
    RealtimeClient.cancelResponse c3AudioState "itm2" 48000
      = ({ c3AudioState with sent := [Command.responseCancel,
            Command.itemTruncate "itm2" 0 2000] }, .ok (some c3AudioItem)) := by
  have h := ((cancelResponse_spec c3AudioState "itm2" 48000 rfl (by decide)).2
      c3AudioItem (by decide)).2.2.2 0 rfl rfl (by decide)
  exact h
